import Mathlib

/-!
Shallow embedding of the dailyword spaced-repetition subsystem.

Sources embedded:
- `api/cron/review.js` — the hourly review cron handler: the due-item query
  (`.lte('next_review', now)`), the per-item pipeline (user/word lookup,
  notification, interval policy, schedule write, per-item try/catch), and the
  HTTP response.
- `scheduler.js` — `runReviewJob` (the polling variant of the same job) and
  the short-recall branch of `bot.on('message')`.
- `api/webhook.js` — `updateUserStreak` and the reply classifier in
  `bot.on('message')`.

Conventions: timestamps are milliseconds since the epoch, modelled as `Int`.
All JS number arithmetic in scope is exact integer arithmetic: for an integer
`x`, `x * 2.5 = 5x/2`, and `Math.round` maps a half-integer to the next
integer toward positive infinity, so `Math.round(x * 2.5) = ⌊(5x+1)/2⌋`.
Lean's `/` on `Int` with a positive divisor is floor division, matching.
Strings are modelled as `List Char`.
-/

namespace DailyWord

/-- One day in milliseconds, `24 * 60 * 60 * 1000` (review.js line 32,
scheduler.js line 173). -/
def msPerDay : Int := 24 * 60 * 60 * 1000

/-- JS `Math.round (x * 2.5)` for an integer `x` (JS rounds the half toward
positive infinity: `Math.round 12.5 = 13`, `Math.round (-2.5) = -2`). -/
def round2_5 (x : Int) : Int := (5 * x + 1) / 2

/-- review.js line 31: `Math.max(1, Math.round((row.interval || 2) * 2.5))`.
`row.interval || 2` replaces the falsy value `0` (and a missing column) by
the default seed `2`; any non-zero integer passes through unchanged. -/
def nextInterval (interval : Int) : Int :=
  max 1 (round2_5 (if interval = 0 then 2 else interval))

/-- scheduler.js line 172: `Math.round(row.interval * 2.5)` — the polling
variant applies neither the `|| 2` default nor the `max(1, ·)` floor. -/
def nextIntervalScheduler (interval : Int) : Int := round2_5 interval

/-- One row of the `user_words` table as selected by review.js line 18:
`select('id,user_id,word_id,interval,next_review')`. -/
structure UserWordRow where
  id : Nat
  user_id : Nat
  word_id : Nat
  interval : Int
  next_review : Int
deriving DecidableEq, Repr

/-- review.js lines 31–34: the per-item schedule update — recompute the
interval and set `next_review` to now plus that many days (in ms). -/
def reviewUpdate (nowMs : Int) (row : UserWordRow) : UserWordRow :=
  { row with
    interval := nextInterval row.interval
    next_review := nowMs + nextInterval row.interval * msPerDay }

/-- review.js line 18: the due-item query
`.from('user_words').select(...).lte('next_review', now)` — keep exactly the
rows with `next_review ≤ now`, in stored order. -/
def selectDue (nowMs : Int) (items : List UserWordRow) : List UserWordRow :=
  items.filter (fun r => r.next_review ≤ nowMs)

/-! ### Review pass orchestration (review.js lines 9–45)

Each due row's iteration of the `for` loop performs, inside its own
`try`/`catch`: a `users` lookup, a `words` lookup, a `continue` when either
is missing, an awaited `bot.sendMessage`, and an awaited `user_words` update.
The fallible effects of one iteration are modelled by an `ItemCtx` telling
how each external call behaves for that iteration; a whole pass takes one
`ItemCtx` per loop index. -/

/-- Outcome environment for one loop iteration of review.js lines 23–38:
whether the two lookups resolve (`lookupOk = false` means the supabase call
itself rejects), whether each lookup finds a row, whether
`bot.sendMessage` resolves, and whether the `user_words` update resolves. -/
structure ItemCtx where
  lookupOk : Bool
  userFound : Bool
  wordFound : Bool
  notifyOk : Bool
  writeOk : Bool
deriving DecidableEq, Repr

/-- Result of one loop iteration: `skipped` is the `continue` at line 27
(missing user or word, nothing logged, nothing written); `failed` is the
`catch` at lines 35–37 (`console.warn('runReviewJob error', e)`, nothing
written); `ok` carries the row as written by the update at line 34. -/
inductive ItemResult where
  | skipped
  | failed
  | ok (newRow : UserWordRow)
deriving DecidableEq, Repr

/-- One iteration of the review.js loop body (lines 24–37).  A rejection of
any awaited call inside the `try` jumps to the `catch`, so a failed lookup,
a failed notification, or a failed write each yield `.failed` with no write;
the write happens only when every step before it succeeded. -/
def processItem (nowMs : Int) (ctx : ItemCtx) (row : UserWordRow) : ItemResult :=
  if !ctx.lookupOk then .failed
  else if !ctx.userFound || !ctx.wordFound then .skipped
  else if !ctx.notifyOk then .failed
  else if !ctx.writeOk then .failed
  else .ok (reviewUpdate nowMs row)

/-- The review.js loop (lines 23–38) over the due rows, one `ItemCtx` per
loop index, starting at index `j`.  Every iteration's exception is caught
inside the loop body, so the loop always reaches the end of the list. -/
def runItems (nowMs : Int) (env : Nat → ItemCtx) (j : Nat) :
    List UserWordRow → List ItemResult
  | [] => []
  | r :: rs => processItem nowMs (env j) r :: runItems nowMs env (j + 1) rs

/-- Stored row after one iteration: the update at line 34 overwrites the row
when it ran; a skipped or failed iteration leaves the stored row unchanged. -/
def applyResult (row : UserWordRow) : ItemResult → UserWordRow
  | .ok newRow => newRow
  | .skipped => row
  | .failed => row

/-- The stored `user_words` rows after a pass over the due list starting at
loop index `j`. -/
def finalRows (nowMs : Int) (env : Nat → ItemCtx) (j : Nat) :
    List UserWordRow → List UserWordRow
  | [] => []
  | r :: rs =>
      applyResult r (processItem nowMs (env j) r) :: finalRows nowMs env (j + 1) rs

/-- Number of iterations that hit the `catch` at review.js lines 35–37
(each produces one `console.warn` log line; nothing else records them). -/
def failuresLogged (nowMs : Int) (env : Nat → ItemCtx) (j : Nat)
    (due : List UserWordRow) : Nat :=
  (runItems nowMs env j due).countP (fun res => res = ItemResult.failed)

/-- The HTTP response review.js sends back. -/
structure HttpResponse where
  status : Nat
  message : String
deriving DecidableEq, Repr

/-- review.js line 40: after the loop the handler always answers
`200` with `Review job completed. Processed ${due.length} reviews.` — the
response is built from the due list alone; nothing from the loop (in
particular no failure count) flows into it. -/
def runReviewJobResponse (due : List UserWordRow) : HttpResponse :=
  { status := 200
    message := "Review job completed. Processed " ++ toString due.length ++ " reviews." }

/-! ### Streak bookkeeping (api/webhook.js lines 45–65, `updateUserStreak`) -/

/-- One row of `user_stats` as read by `updateUserStreak`. -/
structure UserStat where
  id : Nat
  user_id : Nat
  streak : Int
  last_completed : Option Int
deriving DecidableEq, Repr

/-! Concrete fixtures used by witnesses and counterexamples below. -/

/-- An iteration context in which every external call succeeds. -/
def ctxAllOk : ItemCtx := ⟨true, true, true, true, true⟩

/-- An iteration context in which only the `user_words` update rejects. -/
def ctxWriteFail : ItemCtx := ⟨true, true, true, true, false⟩

/-- An iteration context in which only `bot.sendMessage` rejects. -/
def ctxNotifyFail : ItemCtx := ⟨true, true, true, false, true⟩

/-- A concrete due row with interval 2, due at epoch. -/
def demoRow (n : Nat) : UserWordRow := ⟨n, n, n, 2, 0⟩

/-- A concrete three-row due list. -/
def demoDue3 : List UserWordRow := [demoRow 1, demoRow 2, demoRow 3]

/-- Environment where every iteration succeeds. -/
def envAllOk : Nat → ItemCtx := fun _ => ctxAllOk

/-- Environment where the second iteration's storage write rejects and every
other call succeeds. -/
def envSecondWriteFails : Nat → ItemCtx :=
  fun i => if i = 1 then ctxWriteFail else ctxAllOk

/-- Environment where the first iteration's notification rejects and every
other call succeeds. -/
def envFirstNotifyFails : Nat → ItemCtx :=
  fun i => if i = 0 then ctxNotifyFail else ctxAllOk

/-- api/webhook.js lines 45–65: given `now` (ms) and the learner's current
`user_stats` row (`none` when the `maybeSingle` lookup finds nothing),
return the `(streak, last_completed)` pair the function writes back.
No row → insert `streak = 1`; a row whose `last_completed` is within
`2 * oneDay` ms of now → increment; otherwise (older than two days, or
`last_completed` null) → reset to 1.  `last_completed` is always set to now. -/
def updateUserStreak (nowMs : Int) (stat : Option UserStat) : Int × Int :=
  match stat with
  | none => (1, nowMs)
  | some s =>
    match s.last_completed with
    | some lc =>
        if nowMs - lc ≤ 2 * msPerDay then (s.streak + 1, nowMs) else (1, nowMs)
    | none => (1, nowMs)

/-! ### Reply classification (api/webhook.js `bot.on('message')`, lines 190–229) -/

/-- Splitting a character list at every character satisfying `p`, keeping
empty chunks: `k` separator characters produce `k + 1` chunks.  This is the
semantics of JS `String.prototype.split` with a one-character separator
(and of splitting on a character class). -/
def splitOnPred (p : Char → Bool) : List Char → List (List Char)
  | [] => [[]]
  | c :: rest =>
    if p c then [] :: splitOnPred p rest
    else
      match splitOnPred p rest with
      | [] => [[c]]
      | chunk :: chunks => (c :: chunk) :: chunks

/-- Source api/webhook.js line 201: `text.split(' ')` — JS splits at every
single space character only (not at other whitespace, and each space of a
run produces its own cut). -/
def splitSp (s : List Char) : List (List Char) :=
  splitOnPred (fun c => c = ' ') s

/-- JS `toLowerCase`, restricted to characters with plain ASCII case
mappings (the only ones occurring in the inputs in scope): `A`–`Z` map to
`a`–`z`, everything else is unchanged (`Char.toLower` is exactly that). -/
def toLowerStr (s : List Char) : List Char := s.map Char.toLower

/-- Chunk-by-chunk equality of `needle` with the front of `hay`. -/
def takeEq : List Char → List Char → Bool
  | [], _ => true
  | _ :: _, [] => false
  | a :: as, b :: bs => a = b && takeEq as bs

/-- JS `hay.includes(needle)`: `needle` occurs contiguously somewhere in
`hay` (the empty needle occurs in every string). -/
def containsSub (hay needle : List Char) : Bool :=
  match hay with
  | [] => needle.isEmpty
  | _ :: t => takeEq needle hay || containsSub t needle

/-- Source api/webhook.js line 205:
`text.toLowerCase().includes(expected.toLowerCase())`. -/
def isCorrectRecall (text expected : List Char) : Bool :=
  containsSub (toLowerStr text) (toLowerStr expected)

/-- Which branch of the message handler a non-command reply takes
(api/webhook.js lines 201–223): `correctRecall` writes
`correct_count`; `wrongShort` writes `last_response` on the last pending
row; `longReply` is the `else` bulk `last_response` fill plus streak
update. -/
inductive ReplyAction where
  | correctRecall
  | wrongShort
  | longReply
deriving DecidableEq, Repr

/-- Source api/webhook.js lines 201–217: `shortReply` is
`text.split(' ').length <= 3`; a short reply is a correct recall iff the
lowercased text contains the lowercased expected word (`expected` is `''`
when the joined word record is missing). -/
def classifyReply (text expected : List Char) : ReplyAction :=
  if (splitSp text).length ≤ 3 then
    if isCorrectRecall text expected then .correctRecall else .wrongShort
  else .longReply

/-- Spec-side notion, written from the words of claim C10 ("whitespace-
separated words"), for comparison with the source's `splitSp`-based count:
the number of maximal nonempty runs of non-whitespace characters. -/
def specWsWordCount (s : List Char) : Nat :=
  ((splitOnPred (fun c => c = ' ' || c = '\t' || c = '\n' || c = '\r') s).filter
    (fun w => !w.isEmpty)).length

/-! ### The `correct_count` write (api/webhook.js lines 199–210) -/

/-- A full stored `user_words` row (all columns the code ever touches). -/
structure UserWordFullRow where
  id : Nat
  user_id : Nat
  word_id : Nat
  served_at : Int
  next_review : Int
  interval : Int
  correct_count : Option Int
  last_response : Option (List Char)
deriving DecidableEq, Repr

/-- The row shape produced by the pending-items query at api/webhook.js
line 199, `select('id,word_id,last_response,served_at,words:word_id(word)')`:
only the listed columns plus the joined `words.word`. -/
structure PendingRow where
  id : Nat
  word_id : Nat
  last_response : Option (List Char)
  served_at : Int
  word : Option (List Char)
  correct_count : Option Int
deriving DecidableEq, Repr

/-- Projection performed by that select list: `correct_count` is not among
the selected columns, so the JS row object carries no such property and
`lastPending.correct_count` evaluates to `undefined` — modelled as the
field being `none` whatever the stored column holds. -/
def selectPendingRow (r : UserWordFullRow) (joinedWord : Option (List Char)) :
    PendingRow :=
  { id := r.id
    word_id := r.word_id
    last_response := r.last_response
    served_at := r.served_at
    word := joinedWord
    correct_count := none }

/-- Source api/webhook.js line 208: the value written on a correct recall,
`(lastPending.correct_count || 0) + 1`. -/
def correctCountWritten (p : PendingRow) : Int :=
  p.correct_count.getD 0 + 1

/-- One correct-recall round trip on the stored row: query through the
select list of line 199, then write `correct_count` per line 208. -/
def recallStep (joinedWord : Option (List Char)) (r : UserWordFullRow) :
    UserWordFullRow :=
  { r with correct_count := some (correctCountWritten (selectPendingRow r joinedWord)) }

end DailyWord

namespace DailyWord

/-- C1: for every positive integer interval `i`, one review-job step (both
the review.js cron and the scheduler.js polling variant) computes the next
interval as `max(1, round(i * 2.5))`, and that next interval is strictly
greater than `i`. -/
theorem nextInterval_spec_and_strict_growth (i : Int) (h : 1 ≤ i) :
    nextInterval i = max 1 (round2_5 i) ∧
    nextIntervalScheduler i = max 1 (round2_5 i) ∧
    i < nextInterval i := by
  have hne : i ≠ 0 := by omega
  have hge : (1 : Int) ≤ round2_5 i := by simp only [round2_5]; omega
  refine ⟨by simp [nextInterval, hne], ?_, ?_⟩
  · simp only [nextIntervalScheduler]
    exact (max_eq_right hge).symm
  · simp only [nextInterval, if_neg hne, max_eq_right hge, round2_5]
    omega

/-- Witness for C1 at `i = 2`: the next interval is 5 (the 2 → 5 → 13 → 33
chain starts). -/
theorem nextInterval_spec_and_strict_growth_witness :
    nextInterval 2 = max 1 (round2_5 2) ∧
    nextIntervalScheduler 2 = max 1 (round2_5 2) ∧
    (2 : Int) < nextInterval 2 :=
  nextInterval_spec_and_strict_growth 2 (by decide)

/-- C2 counterexample: the claim says reviewing an item with stored
`interval = 0` yields a new interval of exactly 1; on the code the JS
default `row.interval || 2` replaces 0 by 2 (not by 1), so the result is
`max(1, round(2 * 2.5)) = 5`, not 1. -/
theorem nextInterval_zero_is_five_not_one :
    nextInterval 0 = 5 ∧ nextInterval 0 ≠ 1 := by
  constructor <;> decide

/-- C2 amended: a stored interval of 0 is replaced by the default seed 2
before multiplying (yielding 5); a negative stored interval is passed to the
multiplication unchanged and the `max(1, ·)` floor clamps the result to
exactly 1; the result is never non-positive for any input. -/
theorem nextInterval_nonpositive_inputs (i : Int) (hneg : i < 0) :
    nextInterval 0 = 5 ∧
    nextInterval i = 1 ∧
    (∀ k : Int, 1 ≤ nextInterval k) := by
  have hne : i ≠ 0 := by omega
  refine ⟨by decide, ?_, ?_⟩
  · simp only [nextInterval, if_neg hne, round2_5]
    exact max_eq_left (by omega)
  · intro k
    simp only [nextInterval]
    exact le_max_left _ _

/-- Witness for C2 amended at `i = -3`, with the floor checked at `i = 7`. -/
theorem nextInterval_nonpositive_inputs_witness :
    nextInterval 0 = 5 ∧ nextInterval (-3) = 1 ∧ 1 ≤ nextInterval 7 :=
  ⟨(nextInterval_nonpositive_inputs (-3) (by decide)).1,
   (nextInterval_nonpositive_inputs (-3) (by decide)).2.1,
   (nextInterval_nonpositive_inputs (-3) (by decide)).2.2 7⟩

/-- C3: an item with `interval = 2` reviewed once gets `interval = 5` and
`next_review = now + 5 days`; reviewed again (at the later pass time `now2`)
it gets `interval = 13` and `next_review = now2 + 13 days`. -/
theorem reviewUpdate_chain_from_two (now1 now2 : Int) (row : UserWordRow)
    (h : row.interval = 2) :
    (reviewUpdate now1 row).interval = 5 ∧
    (reviewUpdate now1 row).next_review = now1 + 5 * msPerDay ∧
    (reviewUpdate now2 (reviewUpdate now1 row)).interval = 13 ∧
    (reviewUpdate now2 (reviewUpdate now1 row)).next_review = now2 + 13 * msPerDay := by
  simp [reviewUpdate, nextInterval, round2_5, h, msPerDay]

/-- Witness for C3 on a concrete row at pass times 1000 and 2000. -/
theorem reviewUpdate_chain_from_two_witness :
    (reviewUpdate 1000 ⟨1, 1, 1, 2, 0⟩).interval = 5 ∧
    (reviewUpdate 1000 ⟨1, 1, 1, 2, 0⟩).next_review = 1000 + 5 * msPerDay ∧
    (reviewUpdate 2000 (reviewUpdate 1000 ⟨1, 1, 1, 2, 0⟩)).interval = 13 ∧
    (reviewUpdate 2000 (reviewUpdate 1000 ⟨1, 1, 1, 2, 0⟩)).next_review =
      2000 + 13 * msPerDay :=
  reviewUpdate_chain_from_two 1000 2000 ⟨1, 1, 1, 2, 0⟩ rfl

/-- C4: the due-item selection returns exactly the rows with
`next_review ≤ now` (membership both ways), is a sublist of the input (so
the relative order of the input is preserved and every returned row is an
input row, unchanged), and returns `[]` on `[]`. -/
theorem selectDue_spec (now : Int) (items : List UserWordRow) :
    (∀ r : UserWordRow, r ∈ selectDue now items ↔ r ∈ items ∧ r.next_review ≤ now) ∧
    List.Sublist (selectDue now items) items ∧
    selectDue now ([] : List UserWordRow) = [] := by
  refine ⟨?_, ?_, rfl⟩
  · intro r
    simp [selectDue, List.mem_filter]
  · exact List.filter_sublist items

/-- Helper: the review loop produces one result per due row. -/
theorem runItems_length (nowMs : Int) (env : Nat → ItemCtx) (j : Nat)
    (rows : List UserWordRow) :
    (runItems nowMs env j rows).length = rows.length := by
  induction rows generalizing j with
  | nil => rfl
  | cons r rs ih => simp [runItems, ih]

/-- Helper: the result at position `k` of the review loop started at index
`j` is the outcome of row `k` under its own context `env (j + k)`. -/
theorem runItems_getElem? (nowMs : Int) (env : Nat → ItemCtx) (j k : Nat)
    (rows : List UserWordRow) :
    (runItems nowMs env j rows)[k]? =
      (rows[k]?).map (fun r => processItem nowMs (env (j + k)) r) := by
  induction rows generalizing j k with
  | nil => simp [runItems]
  | cons r rs ih =>
    cases k with
    | zero => simp [runItems]
    | succ k =>
      have harith : j + 1 + k = j + (k + 1) := by omega
      simp [runItems, ih (j + 1) k, harith]

/-- Helper: the stored row at position `k` after the loop depends only on
that row and its own context `env (j + k)`. -/
theorem finalRows_getElem? (nowMs : Int) (env : Nat → ItemCtx) (j k : Nat)
    (rows : List UserWordRow) :
    (finalRows nowMs env j rows)[k]? =
      (rows[k]?).map (fun r => applyResult r (processItem nowMs (env (j + k)) r)) := by
  induction rows generalizing j k with
  | nil => simp [finalRows]
  | cons r rs ih =>
    cases k with
    | zero => simp [finalRows]
    | succ k =>
      have harith : j + 1 + k = j + (k + 1) := by omega
      simp [finalRows, ih (j + 1) k, harith]

/-- C5 counterexample: the claim says a failed prompt send still lets the
item's interval and nextReview be updated.  In review.js the awaited
`bot.sendMessage` sits inside the same per-item `try`, before the interval
computation, so its rejection jumps to the `catch`: the iteration is logged
as failed and the stored row is left unchanged — while the update, had it
run, would have changed the row. -/
theorem notifyFailure_counterexample :
    processItem 1000 ctxNotifyFail (demoRow 1) = ItemResult.failed ∧
    finalRows 1000 envFirstNotifyFails 0 [demoRow 1] = [demoRow 1] ∧
    reviewUpdate 1000 (demoRow 1) ≠ demoRow 1 := by
  refine ⟨by decide, by decide, by decide⟩

/-- C5 amended: a failure of the prompt send is caught and logged
(`.failed`) and does not abort the pass — every due row still gets a loop
iteration — but it does abort that item's own interval recomputation: the
failed item's stored row is unchanged for that pass. -/
theorem notify_failure_logged_aborts_item_only (nowMs : Int)
    (env : Nat → ItemCtx) (due : List UserWordRow) (j : Nat) (r : UserWordRow)
    (hr : due[j]? = some r)
    (hl : (env j).lookupOk = true) (hu : (env j).userFound = true)
    (hw : (env j).wordFound = true) (hn : (env j).notifyOk = false) :
    (runItems nowMs env 0 due)[j]? = some ItemResult.failed ∧
    (finalRows nowMs env 0 due)[j]? = some r ∧
    (runItems nowMs env 0 due).length = due.length := by
  have hp : processItem nowMs (env j) r = ItemResult.failed := by
    simp [processItem, hl, hu, hw, hn]
  refine ⟨?_, ?_, runItems_length nowMs env 0 due⟩
  · rw [runItems_getElem?]
    simp [hr, Nat.zero_add, hp]
  · rw [finalRows_getElem?]
    simp [hr, Nat.zero_add, hp, applyResult]

/-- Witness for C5 amended: two due rows, the first iteration's send
rejects; the first row is logged failed and left unchanged while the loop
still covers both rows. -/
theorem notify_failure_logged_aborts_item_only_witness :
    (runItems 1000 envFirstNotifyFails 0 [demoRow 1, demoRow 2])[0]? =
      some ItemResult.failed ∧
    (finalRows 1000 envFirstNotifyFails 0 [demoRow 1, demoRow 2])[0]? =
      some (demoRow 1) ∧
    (runItems 1000 envFirstNotifyFails 0 [demoRow 1, demoRow 2]).length =
      [demoRow 1, demoRow 2].length :=
  notify_failure_logged_aborts_item_only 1000 envFirstNotifyFails
    [demoRow 1, demoRow 2] 0 (demoRow 1) rfl (by decide) (by decide) (by decide)
    (by decide)

/-- C6: item processing is isolated — whatever the contexts of the other
iterations do (the environment is arbitrary elsewhere, so any other item may
throw in lookup, notification or write), an item whose own calls all succeed
is updated per the policy, and the loop covers every due row. -/
theorem item_processing_isolated (nowMs : Int) (env : Nat → ItemCtx)
    (due : List UserWordRow) (k : Nat) (r : UserWordRow)
    (hr : due[k]? = some r)
    (hl : (env k).lookupOk = true) (hu : (env k).userFound = true)
    (hw : (env k).wordFound = true) (hn : (env k).notifyOk = true)
    (hwr : (env k).writeOk = true) :
    (finalRows nowMs env 0 due)[k]? = some (reviewUpdate nowMs r) ∧
    (runItems nowMs env 0 due)[k]? = some (ItemResult.ok (reviewUpdate nowMs r)) ∧
    (runItems nowMs env 0 due).length = due.length := by
  have hp : processItem nowMs (env k) r = ItemResult.ok (reviewUpdate nowMs r) := by
    simp [processItem, hl, hu, hw, hn, hwr]
  refine ⟨?_, ?_, runItems_length nowMs env 0 due⟩
  · rw [finalRows_getElem?]
    simp [hr, Nat.zero_add, hp, applyResult]
  · rw [runItems_getElem?]
    simp [hr, Nat.zero_add, hp]

/-- Witness for C6: the first of two due rows has its notification reject,
yet the second row (all calls fine) is still updated. -/
theorem item_processing_isolated_witness :
    (finalRows 1000 envFirstNotifyFails 0 [demoRow 1, demoRow 2])[1]? =
      some (reviewUpdate 1000 (demoRow 2)) ∧
    (runItems 1000 envFirstNotifyFails 0 [demoRow 1, demoRow 2])[1]? =
      some (ItemResult.ok (reviewUpdate 1000 (demoRow 2))) ∧
    (runItems 1000 envFirstNotifyFails 0 [demoRow 1, demoRow 2]).length =
      [demoRow 1, demoRow 2].length :=
  item_processing_isolated 1000 envFirstNotifyFails [demoRow 1, demoRow 2] 1
    (demoRow 2) rfl (by decide) (by decide) (by decide) (by decide) (by decide)

/-- C7 counterexample: the claim says the pass result carries both a
processed count and a failures count, reporting `failures = 1` in the
3-item scenario with the second write throwing.  The code's result is the
HTTP response built from the due list alone: it is the very same value
`⟨200, "Review job completed. Processed 3 reviews."⟩` whether that pass
logged one failure or none, so the result cannot be carrying a failures
count. -/
theorem reviewResponse_no_failure_count :
    failuresLogged 1000 envSecondWriteFails 0 demoDue3 = 1 ∧
    failuresLogged 1000 envAllOk 0 demoDue3 = 0 ∧
    runReviewJobResponse demoDue3 =
      ⟨200, "Review job completed. Processed 3 reviews."⟩ := by
  refine ⟨by decide, by decide, rfl⟩

/-- C7 amended: in a due pass over 3 items where item 2's storage write
throws and every other call succeeds, items 1 and 3 are updated correctly
and item 2 is left unchanged; one failure is logged (but only logged —
`console.warn`); and the pass never throws on the partial failure: it
answers `200` with a message reporting `processed = 3` (the due-list
length) and no failure count. -/
theorem pass_three_items_one_write_failure (nowMs : Int) (env : Nat → ItemCtx)
    (r1 r2 r3 : UserWordRow)
    (h0 : env 0 = ctxAllOk) (h1 : env 1 = ctxWriteFail) (h2 : env 2 = ctxAllOk) :
    finalRows nowMs env 0 [r1, r2, r3] =
      [reviewUpdate nowMs r1, r2, reviewUpdate nowMs r3] ∧
    failuresLogged nowMs env 0 [r1, r2, r3] = 1 ∧
    runReviewJobResponse [r1, r2, r3] =
      ⟨200, "Review job completed. Processed 3 reviews."⟩ := by
  refine ⟨?_, ?_,
    by simp only [runReviewJobResponse, List.length_cons, List.length_nil]; rfl⟩
  · simp [finalRows, h0, h1, h2, processItem, ctxAllOk, ctxWriteFail, applyResult]
  · simp [failuresLogged, runItems, h0, h1, h2, processItem, ctxAllOk,
      ctxWriteFail, List.countP, List.countP.go]

/-- Witness for C7 amended at the concrete three-row due list. -/
theorem pass_three_items_one_write_failure_witness :
    finalRows 1000 envSecondWriteFails 0 [demoRow 1, demoRow 2, demoRow 3] =
      [reviewUpdate 1000 (demoRow 1), demoRow 2, reviewUpdate 1000 (demoRow 3)] ∧
    failuresLogged 1000 envSecondWriteFails 0 [demoRow 1, demoRow 2, demoRow 3] = 1 ∧
    runReviewJobResponse [demoRow 1, demoRow 2, demoRow 3] =
      ⟨200, "Review job completed. Processed 3 reviews."⟩ :=
  pass_three_items_one_write_failure 1000 envSecondWriteFails
    (demoRow 1) (demoRow 2) (demoRow 3) rfl rfl rfl

/-- C8: the streak update has `streak ≥ 0` always (given the stored streak
was non-negative — the lazy insert seeds 0 or 1); a gap since
`last_completed` of more than two days resets the streak to 1; a gap of at
most two days increments it; and a missing `user_stats` row leads to an
insert with `streak = 1` on first engagement. -/
theorem updateUserStreak_spec (nowMs : Int) (stat : Option UserStat) :
    (updateUserStreak nowMs none = (1, nowMs)) ∧
    (∀ s : UserStat, ∀ lc : Int, stat = some s → s.last_completed = some lc →
      (2 * msPerDay < nowMs - lc → updateUserStreak nowMs stat = (1, nowMs)) ∧
      (nowMs - lc ≤ 2 * msPerDay →
        updateUserStreak nowMs stat = (s.streak + 1, nowMs))) ∧
    (∀ s : UserStat, stat = some s → 0 ≤ s.streak →
      0 ≤ (updateUserStreak nowMs stat).1) ∧
    (0 ≤ (updateUserStreak nowMs none).1) := by
  refine ⟨rfl, ?_, ?_, by simp [updateUserStreak]⟩
  · rintro s lc rfl hlc
    constructor
    · intro hgap
      simp [updateUserStreak, hlc]
      omega
    · intro hgap
      simp [updateUserStreak, hlc, hgap]
  · rintro s rfl hs
    simp only [updateUserStreak]
    cases hlc : s.last_completed with
    | none => simp
    | some lc =>
      by_cases hgap : nowMs - lc ≤ 2 * msPerDay
      · simp [hgap]; omega
      · simp [hgap]

/-- Witness for C8: a stored streak of 3 completed 1 day ago increments to
4; completed 3 days ago it resets to 1; no row inserts 1. -/
theorem updateUserStreak_spec_witness :
    (updateUserStreak (3 * msPerDay) none = (1, 3 * msPerDay)) ∧
    (updateUserStreak (3 * msPerDay)
        (some ⟨1, 1, 3, some (2 * msPerDay)⟩) = (3 + 1, 3 * msPerDay)) ∧
    (updateUserStreak (3 * msPerDay) (some ⟨1, 1, 3, some 0⟩) = (1, 3 * msPerDay)) ∧
    (0 ≤ (updateUserStreak (3 * msPerDay) (some ⟨1, 1, 3, some 0⟩)).1) := by
  have hinc := (updateUserStreak_spec (3 * msPerDay)
    (some ⟨1, 1, 3, some (2 * msPerDay)⟩)).2.1 ⟨1, 1, 3, some (2 * msPerDay)⟩
    (2 * msPerDay) rfl rfl
  have hres := (updateUserStreak_spec (3 * msPerDay)
    (some ⟨1, 1, 3, some 0⟩)).2.1 ⟨1, 1, 3, some 0⟩ 0 rfl rfl
  have hnonneg := (updateUserStreak_spec (3 * msPerDay)
    (some ⟨1, 1, 3, some 0⟩)).2.2.1 ⟨1, 1, 3, some 0⟩ rfl (by decide)
  exact ⟨(updateUserStreak_spec (3 * msPerDay) none).1,
    hinc.2 (by decide), hres.1 (by decide), hnonneg⟩

/-- C9: the pending-items query's select list omits `correct_count`, so the
value written on a correct short recall, `(lastPending.correct_count || 0) + 1`,
is the constant 1 whatever the stored column held; consequently, starting
from a stored value of at most 1 (the default), no sequence of correct
recalls ever pushes the stored `correct_count` above 1. -/
theorem correctCount_never_exceeds_one (r : UserWordFullRow)
    (w : Option (List Char)) (n : Nat) :
    (∀ r2 : UserWordFullRow, correctCountWritten (selectPendingRow r2 w) = 1) ∧
    (r.correct_count.getD 0 ≤ 1 →
      ((recallStep w)^[n] r).correct_count.getD 0 ≤ 1) := by
  constructor
  · intro r2; rfl
  · intro h
    induction n with
    | zero => simpa using h
    | succ k ih =>
      rw [Function.iterate_succ_apply']
      simp [recallStep, correctCountWritten, selectPendingRow]

/-- Witness for C9: a row whose stored `correct_count` is 5 still gets 1
written, and five recalls starting from the default 0 leave the stored
value at most 1. -/
theorem correctCount_never_exceeds_one_witness :
    correctCountWritten
      (selectPendingRow ⟨1, 1, 1, 0, 0, 2, some 5, none⟩ (some ['w'])) = 1 ∧
    ((recallStep (some ['w']))^[5]
        (⟨1, 1, 1, 0, 0, 2, some 0, none⟩ : UserWordFullRow)).correct_count.getD 0 ≤ 1 :=
  ⟨(correctCount_never_exceeds_one ⟨1, 1, 1, 0, 0, 2, some 0, none⟩
      (some ['w']) 5).1 ⟨1, 1, 1, 0, 0, 2, some 5, none⟩,
   (correctCount_never_exceeds_one ⟨1, 1, 1, 0, 0, 2, some 0, none⟩
      (some ['w']) 5).2 (by decide)⟩

/-- C10 counterexample: the claim says a reply of at most 3
whitespace-separated words is classified as a correct recall iff the
lowercased text contains the lowercased expected word.  The code tests
`text.split(' ').length <= 3`, which cuts at every single space: the reply
`"a  b  c"` (double spaces) has 3 whitespace-separated words and contains
the expected word `"a"`, yet it splits into 5 space-chunks, so the handler
takes the long-reply branch and does not classify it as a correct recall. -/
theorem shortReply_whitespace_counterexample :
    specWsWordCount ("a  b  c".toList) = 3 ∧
    isCorrectRecall ("a  b  c".toList) ("a".toList) = true ∧
    classifyReply ("a  b  c".toList) ("a".toList) = ReplyAction.longReply ∧
    ReplyAction.longReply ≠ ReplyAction.correctRecall := by
  refine ⟨by decide, by decide, by decide, by decide⟩

/-- C10 amended: a reply that splits into at most 3 chunks at single space
characters (the JS `text.split(' ').length <= 3` test) is classified as a
correct recall iff the lowercased reply contains the lowercased expected
word as a substring; and when the joined word record is missing the
expected word is the empty string, so every such reply is classified
correct. -/
theorem shortReply_classification (text expected : List Char)
    (h : (splitSp text).length ≤ 3) :
    (classifyReply text expected = ReplyAction.correctRecall ↔
      isCorrectRecall text expected = true) ∧
    (expected = [] → classifyReply text expected = ReplyAction.correctRecall) := by
  have hempty : ∀ hay : List Char, containsSub hay [] = true := by
    intro hay
    cases hay <;> simp [containsSub, takeEq, List.isEmpty]
  constructor
  · by_cases hc : isCorrectRecall text expected = true
    · simp [classifyReply, h, hc]
    · simp [classifyReply, h, hc]
  · rintro rfl
    simp [classifyReply, h, isCorrectRecall, toLowerStr, hempty]

/-- Witness for C10 amended: the one-word reply `"Hello"` against expected
word `"hello"` is a correct recall, and against a missing word record
(empty expected) it is classified correct as well. -/
theorem shortReply_classification_witness :
    (classifyReply ("Hello".toList) ("hello".toList) = ReplyAction.correctRecall ↔
      isCorrectRecall ("Hello".toList) ("hello".toList) = true) ∧
    classifyReply ("hi".toList) [] = ReplyAction.correctRecall :=
  ⟨(shortReply_classification ("Hello".toList) ("hello".toList) (by decide)).1,
   (shortReply_classification ("hi".toList) [] (by decide)).2 rfl⟩

end DailyWord
